import Mathlib

/-!
Verification of the temporal-lens client runtime (shared-memory profiler).

Shallow embedding of the code in `src/shmem.rs`, `src/core.rs` and
`src/lib.rs`.  Machine integers are modelled as `Nat` with an explicit
`% 2 ^ 64` where a cast to `u64` can truncate; the Rust
`Instant`/`Duration` values are nanosecond counts (`Nat`), and the `f64`
seconds value stored in `Time` fields is modelled exactly as a rational
number.  Saturating subtraction (`saturating_duration_since`) is `Nat`
subtraction, which already truncates at zero.  Spin locks and the
double-checked-locking fast path guard concurrency only; the functional
content is modelled as sequential state passing.
-/

namespace TemporalLens

/-! ## Constants (shmem.rs) -/

def MAGIC : Nat := 0x1DC45EF1

def PROTOCOL_VERSION : Nat := 0x00010004

def NUM_ENTRIES : Nat := 256

def LOG_DATA_SIZE : Nat := 8192

def SHARED_STRING_MAX_SIZE : Nat := 128

/-- Seconds since program start (the `Time` alias), an `f64` in the source; modelled
exactly as a rational number. -/
abbrev Time := ℚ

/-- Model of `Duration::as_secs_f64()` applied to a nanosecond count. -/
def duration_as_secs_f64 (ns : Nat) : Time := (ns : ℚ) / 1000000000

/-- Model of `Duration::as_nanos() as u64`: the nanosecond count truncated to 64 bits. -/
def duration_as_nanos_u64 (ns : Nat) : Nat := ns % 2 ^ 64

/-! ## Payload<T> (shmem.rs, lines 169-250)

`Payload<T> { lock: SpinLock, size: usize, data: [T; NUM_ENTRIES] }`.
The spin lock only guards the critical section and is not part of the
functional state; `data` is a list whose length is `NUM_ENTRIES` for any
payload living in the shared region. -/

structure Payload (T : Type) where
  size : Nat
  data : List T
  deriving DecidableEq

/-- Model of `Payload::push` (shmem.rs lines 210-225), with the blanket
`WriteInto<T> for T` adaptor (`*target = *self`): if `size < NUM_ENTRIES`
write `data[size] := entry`; unconditionally `size += 1`; return whether
the entry was stored. -/
def Payload.push {T : Type} (p : Payload T) (entry : T) : Payload T × Bool :=
  if p.size < NUM_ENTRIES then
    ({ size := p.size + 1, data := p.data.set p.size entry }, true)
  else
    ({ size := p.size + 1, data := p.data }, false)

/-- A sequence of `push` calls, collecting the return value of each call. -/
def Payload.pushList {T : Type} (p : Payload T) : List T → Payload T × List Bool
  | [] => (p, [])
  | e :: rest =>
      let pr := p.push e
      let prs := pr.1.pushList rest
      (prs.1, pr.2 :: prs.2)

/-- Model of `Payload::retrieve_unchecked` (shmem.rs lines 227-241): compute
`(retrieved, lost)`, copy the first `retrieved` entries of `data` to the
start of `dst` (`copy_nonoverlapping`), reset `size` to 0.  Returns the
pair together with the new payload and the new destination buffer. -/
def Payload.retrieve_unchecked {T : Type} (p : Payload T) (dst : List T) :
    (Nat × Nat) × Payload T × List T :=
  let rl := if p.size ≤ NUM_ENTRIES then (p.size, 0) else (NUM_ENTRIES, p.size - NUM_ENTRIES)
  ((rl.1, rl.2), ({ size := 0, data := p.data }, p.data.take rl.1 ++ dst.drop rl.1))

/-- Model of `Payload::retrieve` (shmem.rs lines 243-249): asserts that the
destination holds at least `NUM_ENTRIES` elements, then calls
`retrieve_unchecked`; the failed assertion is modelled as `none`. -/
def Payload.retrieve {T : Type} (p : Payload T) (dst : List T) :
    Option ((Nat × Nat) × Payload T × List T) :=
  if NUM_ENTRIES ≤ dst.length then some (p.retrieve_unchecked dst) else none

/-! ## SharedString (shmem.rs, lines 55-118)

Byte contents are lists of `Nat` (byte values); the static string
argument of `set` is modelled by its byte list together with its address.
The `assert!` on over-long strings is modelled as `none` (panic, nothing
stored). `size` is a `u8`, hence the `% 256` on the stored length. -/

structure SharedString where
  key : Nat
  size : Nat
  has_contents : Bool
  contents : List Nat
  deriving DecidableEq

/-- Model of `SharedString::set` (shmem.rs lines 64-81). -/
def SharedString.set (ss : SharedString) (addr : Nat) (raw : List Nat)
    (copy_contents : Bool) : Option SharedString :=
  if raw.length ≤ SHARED_STRING_MAX_SIZE then
    some (if copy_contents then
            { key := addr, size := raw.length % 256, has_contents := true,
              contents := raw ++ ss.contents.drop raw.length }
          else
            { ss with key := addr, has_contents := false })
  else none

/-- Model of `SharedString::set_special` (shmem.rs lines 83-98). -/
def SharedString.set_special (ss : SharedString) (key : Nat)
    (contents : Option (List Nat)) : Option SharedString :=
  match contents with
  | some raw =>
      if raw.length ≤ SHARED_STRING_MAX_SIZE then
        some { key := key, size := raw.length % 256, has_contents := true,
               contents := raw ++ ss.contents.drop raw.length }
      else none
  | none => some { ss with key := key, has_contents := false }

/-- Model of `SharedString::make_str` (shmem.rs lines 106-112): the decoded byte
view `contents[0..size]`, or `none` when the contents were elided. -/
def SharedString.make_str (ss : SharedString) : Option (List Nat) :=
  if ss.has_contents then some (ss.contents.take ss.size) else none

/-! ## SharedMemory::open validation (shmem.rs, lines 268-328) -/

inductive SharedMemoryOpenError where
  | shmemError
  | badMagic
  | protocolMismatch
  | platformMismatch
  deriving DecidableEq

/-- The compatibility header at the start of `SharedMemoryData`. -/
structure SharedMemoryHeader where
  magic : Nat
  protocol_version : Nat
  size_of_usize : Nat
  deriving DecidableEq

/-- Model of `SharedMemory::open` (shmem.rs lines 310-328).  `mapped` is the header
of the mapped region (`none` when the OS-level open itself failed) and
`client_ptr_width` is the size of a pointer in this build. -/
def open_shared_memory (mapped : Option SharedMemoryHeader) (client_ptr_width : Nat) :
    Except SharedMemoryOpenError SharedMemoryHeader :=
  match mapped with
  | none => Except.error SharedMemoryOpenError.shmemError
  | some d =>
      if d.magic ≠ MAGIC then Except.error SharedMemoryOpenError.badMagic
      else if d.protocol_version ≠ PROTOCOL_VERSION then
        Except.error SharedMemoryOpenError.protocolMismatch
      else if d.size_of_usize ≠ client_ptr_width then
        Except.error SharedMemoryOpenError.platformMismatch
      else Except.ok d

/-! ## Core attachment state (core.rs, lines 8-78)

The published region pointer is modelled by an abstract `Nat` identifier;
`Instant`s are nanosecond counts.  The result of `SharedMemory::open` at
the moment of the call is passed in as `open_result`, so that invoking /
not invoking the OS shows up as dependence / independence on it. -/

structure CoreState where
  mem : Option Nat
  ready : Bool
  lastCheck : Option Nat
  startTime : Nat
  deriving DecidableEq

/-- Model of `get_shmem_data_and_start_time` (core.rs lines 19-78), sequential view
of the double-checked-locking code: fast path when `ready`; otherwise
throttle on `last_check` (`saturating_duration_since(x).as_secs() >= 10`),
and on an attempt either publish the region or record the failed attempt
instant. -/
def get_shmem_data_and_start_time (st : CoreState) (now : Nat) (open_result : Option Nat) :
    (Option Nat × Nat) × CoreState :=
  if st.ready then ((st.mem, st.startTime), st)
  else
    let should_init := match st.lastCheck with
      | some x => decide (10 ≤ (now - x) / 1000000000)
      | none => true
    if should_init then
      match open_result with
      | some m => ((some m, st.startTime), { st with mem := some m, ready := true })
      | none => ((none, st.startTime), { st with lastCheck := some now })
    else ((none, st.startTime), st)

/-- A sequence of calls; each element of `calls` is the `now` instant of one call
instant together with what `SharedMemory::open` would return then. -/
def run_get_shmem (st : CoreState) : List (Nat × Option Nat) →
    List (Option Nat × Nat) × CoreState
  | [] => ([], st)
  | c :: rest =>
      let step := get_shmem_data_and_start_time st c.1 c.2
      let rr := run_get_shmem step.2 rest
      (step.1 :: rr.1, rr.2)

/-! ## Frame delimiter (lib.rs, lines 215-243)

`send_frame_info` builds a `FrameData` and pushes it whenever the process
is attached; the `frame_delimiter!` macro keeps a per-site
`(last_frame_instant, frame_number)` pair. -/

structure FrameData where
  number : Nat
  end_ : Time
  duration : Nat
  deriving DecidableEq

structure FrameState where
  last : Option Nat
  num : Nat
  deriving DecidableEq

/-- Model of `send_frame_info` (lib.rs lines 215-227): the entry submitted to
`frame_data.push`, or `none` when unattached.  Note the
`start.unwrap_or(start_time)`. -/
def send_frame_info (attached : Bool) (start_time : Nat) (num : Nat)
    (start : Option Nat) (end_i : Nat) : Option FrameData :=
  if attached then
    some { number := num,
           end_ := duration_as_secs_f64 (end_i - start_time),
           duration := duration_as_nanos_u64 (end_i - start.getD start_time) }
  else none

/-- One invocation of the `frame_delimiter!` macro body (lib.rs lines
229-243): call `send_frame_info` with the stored state, then record `now`
and increment the frame number. -/
def frame_delimiter (attached : Bool) (start_time : Nat) (st : FrameState)
    (pl : Payload FrameData) (now : Nat) : FrameState × Payload FrameData :=
  let pl1 := match send_frame_info attached start_time st.num st.last now with
    | some fd => (pl.push fd).1
    | none => pl
  ({ last := some now, num := st.num + 1 }, pl1)

/-- A sequence of `frame_delimiter!` invocations at the given instants. -/
def run_frames (attached : Bool) (start_time : Nat) :
    FrameState → Payload FrameData → List Nat → FrameState × Payload FrameData
  | st, pl, [] => (st, pl)
  | st, pl, now :: rest =>
      let step := frame_delimiter attached start_time st pl now
      run_frames attached start_time step.1 step.2 rest

/-! ## Zone timing (lib.rs, lines 129-148)

`Zone::drop` computes `end = end_instant - start_time` in `f64` seconds
and `duration = end_instant - start_instant` in `u64` nanoseconds, both
through `saturating_duration_since`. -/

structure TimeData where
  end_ : Time
  duration : Nat
  deriving DecidableEq

/-- The `TimeData` written by `Zone::drop` (lib.rs lines 140-143). -/
def zone_drop_time_data (start_time zone_start end_i : Nat) : TimeData :=
  { end_ := duration_as_secs_f64 (end_i - start_time),
    duration := duration_as_nanos_u64 (end_i - zone_start) }

/-! ## Thread-local depth tracking (lib.rs, lines 29-34, 69-105, 159-168) -/

structure ThreadInfo where
  name_sent : Bool
  depth : Nat
  deriving DecidableEq

/-- The depth bookkeeping of `Zone::new` (lib.rs lines 85-88): capture
`ti.depth`, then increment it. -/
def zone_enter (ti : ThreadInfo) : ThreadInfo × Nat :=
  ({ ti with depth := ti.depth + 1 }, ti.depth)

/-- The `THREAD_INFO` update of `Zone::drop` (lib.rs lines 159-168):
maybe mark the thread name as sent, and always decrement the depth. -/
def zone_leave (ti : ThreadInfo) (ok : Bool) (carried : Bool) : ThreadInfo :=
  { name_sent := if ok && carried then true else ti.name_sent,
    depth := ti.depth - 1 }

/-- A well-nested trace of zone entries and exits on one thread; each exit
carries the `ok` / `carried` flags observed by the corresponding drop. -/
inductive ZEvent where
  | enter
  | leave (ok : Bool) (carried : Bool)
  deriving DecidableEq

/-- Run a trace against the thread-local state, collecting the depth value
captured by each `Zone::new`. -/
def run_zones : ThreadInfo → List ZEvent → ThreadInfo × List Nat
  | ti, [] => (ti, [])
  | ti, ZEvent.enter :: rest =>
      let e := zone_enter ti
      let rr := run_zones e.1 rest
      (rr.1, e.2 :: rr.2)
  | ti, ZEvent.leave ok carried :: rest => run_zones (zone_leave ti ok carried) rest

/-- The depth the spec assigns to each entry: the number of enclosing
unfinished zones, i.e. entries so far minus exits so far; `e` and `x`
count the events already consumed. -/
def spec_depths_aux : Nat → Nat → List ZEvent → List Nat
  | _, _, [] => []
  | e, x, ZEvent.enter :: rest => (e - x) :: spec_depths_aux (e + 1) x rest
  | e, x, ZEvent.leave _ _ :: rest => spec_depths_aux e (x + 1) rest

/-- Well-nestedness of a trace starting at depth `d`: no exit without a
matching open entry. -/
def balanced_from : Nat → List ZEvent → Bool
  | _, [] => true
  | d, ZEvent.enter :: rest => balanced_from (d + 1) rest
  | d, ZEvent.leave _ _ :: rest => decide (0 < d) && balanced_from (d - 1) rest

/-! ## Concrete instances used by witnesses and counterexamples -/

def natPayload : Payload Nat := { size := 0, data := List.replicate NUM_ENTRIES 0 }

def fullPayload : Payload Nat := { size := NUM_ENTRIES, data := List.replicate NUM_ENTRIES 0 }

def sampleString : SharedString :=
  { key := 0, size := 0, has_contents := false, contents := List.replicate SHARED_STRING_MAX_SIZE 0 }

def frameZero : FrameData := { number := 0, end_ := 0, duration := 0 }

def goodHeader : SharedMemoryHeader :=
  { magic := MAGIC, protocol_version := PROTOCOL_VERSION, size_of_usize := 8 }

def framePayload0 : Payload FrameData := { size := 0, data := List.replicate NUM_ENTRIES frameZero }

/-! ## Helper lemmas about Payload -/

theorem Payload.push_size {T : Type} (p : Payload T) (e : T) :
    (p.push e).1.size = p.size + 1 := by
  unfold Payload.push
  split <;> rfl

theorem Payload.push_snd {T : Type} (p : Payload T) (e : T) :
    (p.push e).2 = decide (p.size < NUM_ENTRIES) := by
  unfold Payload.push
  split <;> simp_all

theorem Payload.push_data {T : Type} (p : Payload T) (e : T) :
    (p.push e).1.data = if p.size < NUM_ENTRIES then p.data.set p.size e else p.data := by
  unfold Payload.push
  split <;> simp_all

theorem Payload.pushList_size {T : Type} (es : List T) (p : Payload T) :
    (p.pushList es).1.size = p.size + es.length := by
  induction es generalizing p with
  | nil => simp [Payload.pushList]
  | cons e rest ih =>
      simp only [Payload.pushList, ih, Payload.push_size, List.length_cons]
      omega

theorem Payload.pushList_data_length {T : Type} (es : List T) (p : Payload T) :
    (p.pushList es).1.data.length = p.data.length := by
  induction es generalizing p with
  | nil => rfl
  | cons e rest ih =>
      simp only [Payload.pushList, ih, Payload.push_data]
      split <;> simp

theorem Payload.pushList_results {T : Type} (es : List T) (p : Payload T) :
    (p.pushList es).2 =
      (List.range es.length).map (fun i => decide (p.size + i < NUM_ENTRIES)) := by
  induction es generalizing p with
  | nil => rfl
  | cons e rest ih =>
      simp only [Payload.pushList, ih, Payload.push_size, Payload.push_snd,
        List.length_cons, List.range_succ_eq_map, List.map_cons, List.map_map]
      congr 1
      refine List.map_congr_left fun i _ => ?_
      simp only [Function.comp_apply]
      exact decide_eq_decide.mpr (by omega)

theorem List.take_set_succ {T : Type} (l : List T) (k : Nat) (e : T) (h : k < l.length) :
    (l.set k e).take (k + 1) = l.take k ++ [e] := by
  induction l generalizing k with
  | nil => simp at h
  | cons a t ih =>
      cases k with
      | zero => simp
      | succ k =>
          simp only [List.set_cons_succ, List.take_succ_cons, List.cons_append]
          rw [ih k (by simpa using h)]

theorem Payload.pushList_data {T : Type} (es : List T) (p : Payload T)
    (hlen : p.data.length = NUM_ENTRIES) :
    (p.pushList es).1.data.take (min (p.size + es.length) NUM_ENTRIES) =
      p.data.take p.size ++ es.take (NUM_ENTRIES - p.size) := by
  induction es generalizing p with
  | nil =>
      simp only [Payload.pushList, List.length_nil, Nat.add_zero, List.take_nil,
        List.append_nil]
      rcases Nat.le_total p.size NUM_ENTRIES with h | h
      · rw [Nat.min_eq_left h]
      · rw [Nat.min_eq_right h, ← hlen, List.take_length,
          List.take_of_length_le (by omega)]
  | cons e rest ih =>
      by_cases h : p.size < NUM_ENTRIES
      · have hset : ((p.push e).1.data).length = NUM_ENTRIES := by
          rw [Payload.push_data]
          simp [h, hlen]
        have ihx := ih (p.push e).1 hset
        rw [Payload.push_size, Payload.push_data] at ihx
        simp only [h, if_true] at ihx
        have hmin : min (p.size + (e :: rest).length) NUM_ENTRIES
            = min (p.size + 1 + rest.length) NUM_ENTRIES := by
          simp only [List.length_cons]; omega
        simp only [Payload.pushList, hmin, ihx,
          List.take_set_succ p.data p.size e (by omega)]
        have hsub : NUM_ENTRIES - p.size = (NUM_ENTRIES - (p.size + 1)) + 1 := by omega
        rw [hsub, List.take_succ_cons, List.append_assoc, List.singleton_append]
      · have hge : NUM_ENTRIES ≤ p.size := by omega
        have ihx := ih (p.push e).1 (by rw [Payload.push_data]; simp [h, hlen])
        rw [Payload.push_size, Payload.push_data] at ihx
        simp only [h, if_false] at ihx
        have hmin : min (p.size + (e :: rest).length) NUM_ENTRIES
            = min (p.size + 1 + rest.length) NUM_ENTRIES := by
          simp only [List.length_cons]; omega
        have h1 : NUM_ENTRIES - (p.size + 1) = 0 := by omega
        have h2 : NUM_ENTRIES - p.size = 0 := by omega
        simp only [Payload.pushList, hmin, ihx, h1, h2, List.take_zero, List.append_nil]
        rw [List.take_of_length_le (by omega), List.take_of_length_le (by omega)]

theorem Payload.retrieve_unchecked_ret {T : Type} (p : Payload T) (dst : List T) :
    (p.retrieve_unchecked dst).1.1 = min p.size NUM_ENTRIES := by
  simp only [Payload.retrieve_unchecked]
  split <;> simp <;> omega

theorem Payload.retrieve_unchecked_lost {T : Type} (p : Payload T) (dst : List T) :
    (p.retrieve_unchecked dst).1.2 = p.size - NUM_ENTRIES := by
  simp only [Payload.retrieve_unchecked]
  split <;> simp <;> omega

theorem Payload.retrieve_unchecked_newsize {T : Type} (p : Payload T) (dst : List T) :
    (p.retrieve_unchecked dst).2.1.size = 0 := rfl

theorem Payload.retrieve_unchecked_dst {T : Type} (p : Payload T) (dst : List T) :
    (p.retrieve_unchecked dst).2.2 =
      p.data.take (min p.size NUM_ENTRIES) ++ dst.drop (min p.size NUM_ENTRIES) := by
  simp only [Payload.retrieve_unchecked]
  split
  next h => simp [Nat.min_eq_left h]
  next h => simp [Nat.min_eq_right (by omega : NUM_ENTRIES ≤ p.size)]

theorem range_map_decide_lt (n : Nat) :
    (List.range (n + 1)).map (fun i => decide (i < n)) = List.replicate n true ++ [false] := by
  have hmap : (List.range n).map (fun i => decide (i < n)) = List.replicate n true := by
    refine List.eq_replicate.mpr ⟨by simp, ?_⟩
    intro b hb
    simp only [List.mem_map, List.mem_range] at hb
    obtain ⟨i, hi, rfl⟩ := hb
    simpa using hi
  rw [List.range_succ, List.map_append, hmap]
  simp

/-! ## Claim theorems -/

/-- Claim C1: for every `Payload` and every sequence of `n` pushes since
the last drain, a drain returns `retrieved = min(size, NUM_ENTRIES)` and
`lost = max(0, size - NUM_ENTRIES)` with `retrieved + lost = n`, copies
the first `min(n, NUM_ENTRIES)` pushed entries, in push order, into the
destination, and resets `size` to 0. -/
theorem payload_drain_after_pushes (p0 : Payload Nat) (es dst : List Nat)
    (h0 : p0.size = 0) (hlen : p0.data.length = NUM_ENTRIES)
    (hdst : NUM_ENTRIES ≤ dst.length) :
    ∃ res, (p0.pushList es).1.retrieve dst = some res ∧
      res.1.1 = min es.length NUM_ENTRIES ∧
      res.1.2 = es.length - NUM_ENTRIES ∧
      res.1.1 + res.1.2 = es.length ∧
      res.2.1.size = 0 ∧
      res.2.2.take res.1.1 = es.take NUM_ENTRIES := by
  have hsize : (p0.pushList es).1.size = es.length := by
    rw [Payload.pushList_size, h0, Nat.zero_add]
  have hdlen : (p0.pushList es).1.data.length = NUM_ENTRIES := by
    rw [Payload.pushList_data_length, hlen]
  have hdtake : (p0.pushList es).1.data.take (min es.length NUM_ENTRIES)
      = es.take NUM_ENTRIES := by
    have h := Payload.pushList_data es p0 hlen
    rw [h0] at h
    simpa using h
  have hret := Payload.retrieve_unchecked_ret (p0.pushList es).1 dst
  have hlost := Payload.retrieve_unchecked_lost (p0.pushList es).1 dst
  have hsz := Payload.retrieve_unchecked_newsize (p0.pushList es).1 dst
  have hdst2 := Payload.retrieve_unchecked_dst (p0.pushList es).1 dst
  rw [hsize] at hret hlost hdst2
  refine ⟨(p0.pushList es).1.retrieve_unchecked dst, ?_, hret, hlost, ?_, hsz, ?_⟩
  · unfold Payload.retrieve
    rw [if_pos hdst]
  · rw [hret, hlost]; omega
  · rw [hret, hdst2]
    have htl : ((p0.pushList es).1.data.take (min es.length NUM_ENTRIES)).length
        = min es.length NUM_ENTRIES := by
      rw [List.length_take, hdlen]
      omega
    calc (((p0.pushList es).1.data.take (min es.length NUM_ENTRIES)
            ++ dst.drop (min es.length NUM_ENTRIES)).take (min es.length NUM_ENTRIES))
        = ((p0.pushList es).1.data.take (min es.length NUM_ENTRIES)
            ++ dst.drop (min es.length NUM_ENTRIES)).take
            ((p0.pushList es).1.data.take (min es.length NUM_ENTRIES)).length := by
          rw [htl]
      _ = (p0.pushList es).1.data.take (min es.length NUM_ENTRIES) := List.take_left _ _
      _ = es.take NUM_ENTRIES := hdtake

/-- Witness for C1: three pushes into a fresh payload, drained. -/
theorem payload_drain_after_pushes_witness :
    ∃ res, (natPayload.pushList [7, 8, 9]).1.retrieve (List.replicate NUM_ENTRIES 0)
        = some res ∧
      res.1.1 = min ([7, 8, 9] : List Nat).length NUM_ENTRIES ∧
      res.1.2 = ([7, 8, 9] : List Nat).length - NUM_ENTRIES ∧
      res.1.1 + res.1.2 = ([7, 8, 9] : List Nat).length ∧
      res.2.1.size = 0 ∧
      res.2.2.take res.1.1 = ([7, 8, 9] : List Nat).take NUM_ENTRIES :=
  payload_drain_after_pushes natPayload [7, 8, 9] (List.replicate NUM_ENTRIES 0)
    rfl (by simp [natPayload]) (by simp)

/-- Claim C2: `push` writes into `data[size]` exactly when
`size < NUM_ENTRIES` before the increment, unconditionally increments
`size`, and returns true iff the entry was stored; from a fresh payload,
exactly `NUM_ENTRIES` pushes succeed and the next one fails while still
incrementing `size`. -/
theorem payload_push_spec (q p : Payload Nat) (e : Nat) (es : List Nat)
    (h0 : p.size = 0) (hlen : es.length = NUM_ENTRIES + 1) :
    (q.push e).1.size = q.size + 1 ∧
    ((q.push e).2 = true ↔ q.size < NUM_ENTRIES) ∧
    (q.push e).1.data = (if q.size < NUM_ENTRIES then q.data.set q.size e else q.data) ∧
    (p.pushList es).2 = List.replicate NUM_ENTRIES true ++ [false] ∧
    (p.pushList es).1.size = NUM_ENTRIES + 1 := by
  refine ⟨Payload.push_size q e, ?_, Payload.push_data q e, ?_, ?_⟩
  · rw [Payload.push_snd]; simp
  · rw [Payload.pushList_results, h0, hlen]
    simp only [Nat.zero_add]
    exact range_map_decide_lt NUM_ENTRIES
  · rw [Payload.pushList_size, h0, hlen]
    omega

/-- Witness for C2: 257 pushes into a fresh payload. -/
theorem payload_push_spec_witness :
    (natPayload.pushList (List.replicate (NUM_ENTRIES + 1) 0)).2
      = List.replicate NUM_ENTRIES true ++ [false] :=
  (payload_push_spec natPayload natPayload 7 (List.replicate (NUM_ENTRIES + 1) 0)
    rfl (by simp)).2.2.2.1

/-- Claim C10: a push into a payload whose `size` is already at least
`NUM_ENTRIES` leaves the whole `data` array unchanged and changes no
field other than `size`, which grows by exactly 1. -/
theorem payload_push_overflow_frame (p : Payload Nat) (e : Nat)
    (h : NUM_ENTRIES ≤ p.size) :
    (p.push e).1.data = p.data ∧ (p.push e).1.size = p.size + 1 ∧ (p.push e).2 = false := by
  refine ⟨?_, Payload.push_size p e, ?_⟩
  · rw [Payload.push_data, if_neg (by omega)]
  · rw [Payload.push_snd]
    simp only [decide_eq_false_iff_not]
    omega

/-- Witness for C10: a push into a payload already holding 256 attempts. -/
theorem payload_push_overflow_frame_witness :
    (fullPayload.push 3).1.data = fullPayload.data ∧
    (fullPayload.push 3).1.size = fullPayload.size + 1 ∧
    (fullPayload.push 3).2 = false :=
  payload_push_overflow_frame fullPayload 3 (Nat.le_refl NUM_ENTRIES)

/-- Claim C5: `SharedMemory::open` validates in order magic, protocol
version, pointer width, returning the matching typed error and no handle
on the first mismatch, and a handle exactly when all three checks pass. -/
theorem shared_memory_open_validation (d : SharedMemoryHeader) (w : Nat) :
    (open_shared_memory (some d) w = Except.error SharedMemoryOpenError.badMagic
      ↔ d.magic ≠ MAGIC) ∧
    (d.magic = MAGIC →
      (open_shared_memory (some d) w = Except.error SharedMemoryOpenError.protocolMismatch
        ↔ d.protocol_version ≠ PROTOCOL_VERSION)) ∧
    (d.magic = MAGIC → d.protocol_version = PROTOCOL_VERSION →
      (open_shared_memory (some d) w = Except.error SharedMemoryOpenError.platformMismatch
        ↔ d.size_of_usize ≠ w)) ∧
    (∀ r, open_shared_memory (some d) w = Except.ok r →
      r = d ∧ d.magic = MAGIC ∧ d.protocol_version = PROTOCOL_VERSION ∧ d.size_of_usize = w) ∧
    (d.magic = MAGIC ∧ d.protocol_version = PROTOCOL_VERSION ∧ d.size_of_usize = w →
      open_shared_memory (some d) w = Except.ok d) := by
  simp only [open_shared_memory]
  by_cases h1 : d.magic = MAGIC <;> by_cases h2 : d.protocol_version = PROTOCOL_VERSION <;>
    by_cases h3 : d.size_of_usize = w <;>
    simp [h1, h2, h3]

/-- Witness for C5: a fully matching header opens successfully. -/
theorem shared_memory_open_validation_witness :
    open_shared_memory (some goodHeader) 8 = Except.ok goodHeader :=
  (shared_memory_open_validation goodHeader 8).2.2.2.2 ⟨rfl, rfl, rfl⟩

/-- Claim C6: for a string of at most 128 bytes, `set` with
`copy_contents = true` followed by `make_str` returns exactly the bytes
of the string, and `set` with `copy_contents = false` decodes to `none`
while the key is the address of the string. -/
theorem shared_string_set_roundtrip (ss : SharedString) (addr : Nat) (raw : List Nat)
    (h : raw.length ≤ SHARED_STRING_MAX_SIZE) :
    ∃ sc sn, ss.set addr raw true = some sc ∧ ss.set addr raw false = some sn ∧
      sc.make_str = some raw ∧ sc.key = addr ∧
      sn.make_str = none ∧ sn.key = addr := by
  refine ⟨{ key := addr, size := raw.length % 256, has_contents := true,
            contents := raw ++ ss.contents.drop raw.length },
          { ss with key := addr, has_contents := false },
          ?_, ?_, ?_, rfl, ?_, rfl⟩
  · simp [SharedString.set, h]
  · simp [SharedString.set, h]
  · have hm : raw.length % 256 = raw.length :=
      Nat.mod_eq_of_lt (by simp only [SHARED_STRING_MAX_SIZE] at h; omega)
    simp only [SharedString.make_str, if_pos rfl, hm]
    rw [List.take_append_of_le_length (Nat.le_refl raw.length), List.take_length]
    simp
  · simp [SharedString.make_str]

/-- Witness for C6: a three-byte string at address 42. -/
theorem shared_string_set_roundtrip_witness :
    ∃ sc sn, sampleString.set 42 [104, 105, 33] true = some sc ∧
      sampleString.set 42 [104, 105, 33] false = some sn ∧
      sc.make_str = some [104, 105, 33] ∧ sc.key = 42 ∧
      sn.make_str = none ∧ sn.key = 42 :=
  shared_string_set_roundtrip sampleString 42 [104, 105, 33] (by simp [SHARED_STRING_MAX_SIZE])

/-- Claim C9: `set` and `set_special` accept any byte length up to and
including 128 without failing; 129 bytes or more makes the assertion
fail (modelled as `none`) and nothing is stored. -/
theorem shared_string_length_guard (ss : SharedString) (addr key : Nat) (raw : List Nat)
    (c : Bool) :
    (raw.length ≤ SHARED_STRING_MAX_SIZE →
      (ss.set addr raw c).isSome ∧ (ss.set_special key (some raw)).isSome) ∧
    (SHARED_STRING_MAX_SIZE < raw.length →
      ss.set addr raw c = none ∧ ss.set_special key (some raw) = none) := by
  constructor
  · intro h
    constructor
    · simp only [SharedString.set, if_pos h, Option.isSome_some]
    · simp only [SharedString.set_special, if_pos h, Option.isSome_some]
  · intro h
    constructor
    · simp only [SharedString.set, if_neg (by omega : ¬ raw.length ≤ SHARED_STRING_MAX_SIZE)]
    · simp only [SharedString.set_special,
        if_neg (by omega : ¬ raw.length ≤ SHARED_STRING_MAX_SIZE)]

/-- Witness for C9: a 128-byte string is accepted, a 129-byte string is
refused, for both `set` and `set_special`. -/
theorem shared_string_length_guard_witness :
    (sampleString.set 5 (List.replicate 128 0) true).isSome ∧
    sampleString.set 5 (List.replicate 129 0) true = none ∧
    (sampleString.set_special 9 (some (List.replicate 128 0))).isSome ∧
    sampleString.set_special 9 (some (List.replicate 129 0)) = none :=
  ⟨((shared_string_length_guard sampleString 5 9 (List.replicate 128 0) true).1
      (by simp [SHARED_STRING_MAX_SIZE])).1,
   ((shared_string_length_guard sampleString 5 9 (List.replicate 129 0) true).2
      (by simp [SHARED_STRING_MAX_SIZE])).1,
   ((shared_string_length_guard sampleString 5 9 (List.replicate 128 0) true).1
      (by simp [SHARED_STRING_MAX_SIZE])).2,
   ((shared_string_length_guard sampleString 5 9 (List.replicate 129 0) true).2
      (by simp [SHARED_STRING_MAX_SIZE])).2⟩

theorem get_shmem_start_time_invariant (st : CoreState) (now : Nat) (r : Option Nat) :
    (get_shmem_data_and_start_time st now r).1.2 = st.startTime ∧
    (get_shmem_data_and_start_time st now r).2.startTime = st.startTime := by
  simp only [get_shmem_data_and_start_time]
  by_cases hr : st.ready
  · simp [hr]
  · simp only [hr, if_false, Bool.false_eq_true]
    split
    · cases r <;> simp
    · simp

theorem run_get_shmem_start_time (st : CoreState) (calls : List (Nat × Option Nat)) :
    ∀ out ∈ (run_get_shmem st calls).1, out.2 = st.startTime := by
  induction calls generalizing st with
  | nil => intro out h; simp [run_get_shmem] at h
  | cons c rest ih =>
      intro out h
      simp only [run_get_shmem, List.mem_cons] at h
      rcases h with h | h
      · rw [h]
        exact (get_shmem_start_time_invariant st c.1 c.2).1
      · have h2 := ih (get_shmem_data_and_start_time st c.1 c.2).2 out h
        rw [h2]
        exact (get_shmem_start_time_invariant st c.1 c.2).2

/-- Claim C8: when not yet attached, a call less than 10 seconds after a
recorded failed attempt returns `(none, start_time)` without invoking
`SharedMemory::open` (the result and state do not depend on what `open`
would return, and nothing changes); with no prior attempt, or at least 10
seconds after one, the call invokes `open`: on failure it records the
current instant as the last attempt, on success it publishes the region
and returns it; and the returned `start_time` is the same instant on
every call. -/
theorem core_attach_behavior (st : CoreState) (now t : Nat) (r : Option Nat) :
    (st.ready = false → st.lastCheck = some t → now - t < 10000000000 →
      get_shmem_data_and_start_time st now r = ((none, st.startTime), st)) ∧
    (st.ready = false →
      (st.lastCheck = none ∨ (st.lastCheck = some t ∧ 10000000000 ≤ now - t)) →
      (get_shmem_data_and_start_time st now none
          = ((none, st.startTime), { st with lastCheck := some now }) ∧
        ∀ m, get_shmem_data_and_start_time st now (some m)
          = ((some m, st.startTime), { st with mem := some m, ready := true }))) ∧
    (get_shmem_data_and_start_time st now r).1.2 = st.startTime ∧
    (∀ calls : List (Nat × Option Nat),
      ∀ out ∈ (run_get_shmem st calls).1, out.2 = st.startTime) := by
  refine ⟨?_, ?_, (get_shmem_start_time_invariant st now r).1,
    run_get_shmem_start_time st⟩
  · intro hr hl hlt
    have hdiv : (now - t) / 1000000000 < 10 :=
      Nat.div_lt_of_lt_mul (by omega)
    simp only [get_shmem_data_and_start_time, hr, if_false, Bool.false_eq_true, hl]
    simp [Nat.not_le.mpr hdiv]
  · intro hr hcase
    have hinit : (match st.lastCheck with
        | some x => decide (10 ≤ (now - x) / 1000000000)
        | none => true) = true := by
      rcases hcase with h | ⟨h, hge⟩
      · simp [h]
      · simp only [h]
        exact decide_eq_true ((Nat.le_div_iff_mul_le (by omega)).mpr (by omega))
    constructor
    · simp only [get_shmem_data_and_start_time, hr, if_false, Bool.false_eq_true, hinit]
      simp
    · intro m
      simp only [get_shmem_data_and_start_time, hr, if_false, Bool.false_eq_true, hinit]
      simp

/-- Witness for C8: a throttled call 5 seconds after a failed attempt,
and a permitted call 10 seconds after it. -/
theorem core_attach_behavior_witness :
    get_shmem_data_and_start_time
        { mem := none, ready := false, lastCheck := some 0, startTime := 0 }
        5000000000 (some 1)
      = ((none, 0), { mem := none, ready := false, lastCheck := some 0, startTime := 0 }) ∧
    get_shmem_data_and_start_time
        { mem := none, ready := false, lastCheck := some 0, startTime := 0 }
        10000000000 (some 1)
      = ((some 1, 0), { mem := some 1, ready := true, lastCheck := some 0, startTime := 0 }) :=
  ⟨(core_attach_behavior
      { mem := none, ready := false, lastCheck := some 0, startTime := 0 }
      5000000000 0 (some 1)).1 rfl rfl (by omega),
   ((core_attach_behavior
      { mem := none, ready := false, lastCheck := some 0, startTime := 0 }
      10000000000 0 (some 1)).2.1 rfl (Or.inr ⟨rfl, by omega⟩)).2 1⟩

theorem run_zones_spec_aux (t : List ZEvent) (e x : Nat) (ti : ThreadInfo)
    (hxe : x ≤ e) (hd : ti.depth = e - x) (hb : balanced_from (e - x) t = true) :
    (run_zones ti t).2 = spec_depths_aux e x t := by
  induction t generalizing e x ti with
  | nil => rfl
  | cons ev rest ih =>
      cases ev with
      | enter =>
          simp only [run_zones, zone_enter, spec_depths_aux]
          simp only [balanced_from] at hb
          rw [hd]
          congr 1
          exact ih (e + 1) x { name_sent := ti.name_sent, depth := e - x + 1 } (by omega)
            (by simp; omega) (by rw [show e + 1 - x = e - x + 1 by omega]; exact hb)
      | leave ok carried =>
          simp only [run_zones, spec_depths_aux]
          simp only [balanced_from, Bool.and_eq_true, decide_eq_true_eq] at hb
          have hpos : 0 < e - x := hb.1
          exact ih e (x + 1) (zone_leave ti ok carried) (by omega)
            (by simp [zone_leave]; omega)
            (by rw [show e - (x + 1) = e - x - 1 by omega]; exact hb.2)

/-- Claim C7: `Zone::new` captures the thread-local depth and then
increments it by exactly 1; each drop decrements it by exactly 1,
independently of whether the push succeeded or the process was attached;
hence over any well-nested trace the depth recorded at each entry equals
the number of enclosing unfinished zones, e.g. entering A, entering B,
exiting B, exiting A records depth 0 for A and 1 for B. -/
theorem zone_depth_tracking (ti tj : ThreadInfo) (ok ok' carried carried' : Bool)
    (t : List ZEvent) (h0 : ti.depth = 0) (hdj : 0 < tj.depth)
    (hb : balanced_from 0 t = true) :
    (zone_enter ti).2 = ti.depth ∧
    (zone_enter ti).1.depth = ti.depth + 1 ∧
    (zone_leave tj ok carried).depth + 1 = tj.depth ∧
    (zone_leave tj ok carried).depth = (zone_leave tj ok' carried').depth ∧
    (run_zones ti t).2 = spec_depths_aux 0 0 t ∧
    (run_zones { name_sent := false, depth := 0 }
        [ZEvent.enter, ZEvent.enter, ZEvent.leave true true,
         ZEvent.leave false false]).2 = [0, 1] := by
  refine ⟨rfl, rfl, ?_, rfl, ?_, rfl⟩
  · simp only [zone_leave]
    omega
  · exact run_zones_spec_aux t 0 0 ti (Nat.le_refl 0) (by omega) (by simpa using hb)

/-- Witness for C7: the A-B nesting scenario run through the theorem. -/
theorem zone_depth_tracking_witness :
    (run_zones { name_sent := false, depth := 0 }
        [ZEvent.enter, ZEvent.enter, ZEvent.leave true true,
         ZEvent.leave false false]).2 = [0, 1] :=
  (zone_depth_tracking { name_sent := false, depth := 0 } { name_sent := false, depth := 2 }
    true false true false
    [ZEvent.enter, ZEvent.enter, ZEvent.leave true true, ZEvent.leave false false]
    rfl (by decide) (by decide)).2.2.2.2.2

/-- Counterexample to claim C3: with the process attached, the very first
`frame_delimiter!` call already pushes a `FrameData` (the code uses
`start.unwrap_or(start_time)`), numbered 0; three calls at t = 0, 16 ms
and 33 ms store three entries numbered 0, 1, 2, not two entries numbered
1 and 2. -/
theorem frame_delimiter_counterexample :
    (frame_delimiter true 0 { last := none, num := 0 } framePayload0 0).2.size = 1 ∧
    (run_frames true 0 { last := none, num := 0 } framePayload0
        [0, 16000000, 33000000]).2.size = 3 ∧
    ((run_frames true 0 { last := none, num := 0 } framePayload0
        [0, 16000000, 33000000]).2.data.take 3).map FrameData.number = [0, 1, 2] := by
  refine ⟨rfl, rfl, ?_⟩
  decide

/-- Claim C3 as amended: while attached, `frame_delimiter` pushes on
every call, the first one included: the first call pushes number 0 with
duration measured from `start_time`, then records the instant and
increments the frame number; three calls at t0 ≤ t1 ≤ t2 store three
entries numbered 0, 1, 2 whose second and third durations are the gaps
between consecutive calls (and the first is t0 − start_time). -/
theorem frame_delimiter_amended (start_time t0 t1 t2 : Nat) (pl : Payload FrameData)
    (h0 : start_time ≤ t0) (h1 : t0 ≤ t1) (h2 : t1 ≤ t2) (hw : t2 < 2 ^ 64)
    (hp : pl.size = 0) (hlen : pl.data.length = NUM_ENTRIES) :
    (run_frames true start_time { last := none, num := 0 } pl [t0, t1, t2]).1.num = 3 ∧
    (run_frames true start_time { last := none, num := 0 } pl [t0, t1, t2]).1.last
      = some t2 ∧
    (run_frames true start_time { last := none, num := 0 } pl [t0, t1, t2]).2.size = 3 ∧
    ((run_frames true start_time { last := none, num := 0 } pl
        [t0, t1, t2]).2.data.take 3).map FrameData.number = [0, 1, 2] ∧
    ((run_frames true start_time { last := none, num := 0 } pl
        [t0, t1, t2]).2.data.take 3).map FrameData.duration
      = [t0 - start_time, t1 - t0, t2 - t1] := by
  have hstep : run_frames true start_time { last := none, num := 0 } pl [t0, t1, t2]
      = ({ last := some t2, num := 3 },
         (pl.pushList
           [{ number := 0, end_ := duration_as_secs_f64 (t0 - start_time),
              duration := duration_as_nanos_u64 (t0 - start_time) },
            { number := 1, end_ := duration_as_secs_f64 (t1 - start_time),
              duration := duration_as_nanos_u64 (t1 - t0) },
            { number := 2, end_ := duration_as_secs_f64 (t2 - start_time),
              duration := duration_as_nanos_u64 (t2 - t1) }]).1) := rfl
  have hdata : ((run_frames true start_time { last := none, num := 0 } pl
      [t0, t1, t2]).2).data.take 3
      = [{ number := 0, end_ := duration_as_secs_f64 (t0 - start_time),
           duration := duration_as_nanos_u64 (t0 - start_time) },
         { number := 1, end_ := duration_as_secs_f64 (t1 - start_time),
           duration := duration_as_nanos_u64 (t1 - t0) },
         { number := 2, end_ := duration_as_secs_f64 (t2 - start_time),
           duration := duration_as_nanos_u64 (t2 - t1) }] := by
    rw [hstep]
    have h := Payload.pushList_data
      [{ number := 0, end_ := duration_as_secs_f64 (t0 - start_time),
         duration := duration_as_nanos_u64 (t0 - start_time) },
       { number := 1, end_ := duration_as_secs_f64 (t1 - start_time),
         duration := duration_as_nanos_u64 (t1 - t0) },
       { number := 2, end_ := duration_as_secs_f64 (t2 - start_time),
         duration := duration_as_nanos_u64 (t2 - t1) }] pl hlen
    rw [hp] at h
    simpa [NUM_ENTRIES] using h
  refine ⟨by rw [hstep], by rw [hstep], ?_, ?_, ?_⟩
  · rw [hstep, Payload.pushList_size, hp]
    rfl
  · rw [hdata]
    rfl
  · rw [hdata]
    simp only [List.map_cons, List.map_nil, duration_as_nanos_u64]
    rw [Nat.mod_eq_of_lt (by omega), Nat.mod_eq_of_lt (by omega),
      Nat.mod_eq_of_lt (by omega)]

/-- Witness for the amended C3: the t = 0 ms / 16 ms / 33 ms scenario
with `start_time = 0`. -/
theorem frame_delimiter_amended_witness :
    ((run_frames true 0 { last := none, num := 0 } framePayload0
        [0, 16000000, 33000000]).2.data.take 3).map FrameData.duration
      = [0 - 0, 16000000 - 0, 33000000 - 16000000] :=
  (frame_delimiter_amended 0 0 16000000 33000000 framePayload0
    (by omega) (by omega) (by omega) (by norm_num) rfl
    (by simp [framePayload0])).2.2.2.2

/-- Counterexample to claim C4: a zone that starts before the process
`start_time` instant is first captured (the first call into the core can
be the drop of the zone itself) is recorded with `end = 0` but a 10-second
duration, so `end ≥ duration * 1e-9` fails. -/
theorem zone_time_counterexample :
    ¬ ((zone_drop_time_data 10000000000 0 10000000000).duration : ℚ) * (1 / 1000000000)
      ≤ (zone_drop_time_data 10000000000 0 10000000000).end_ := by
  norm_num [zone_drop_time_data, duration_as_secs_f64, duration_as_nanos_u64]

/-- Claim C4 as amended: for every zone pushed to `zone_data`, the
recorded `end` and `duration` are nonnegative, and provided the process
`start_time` is not later than the start instant of the zone (as when the
attachment state was initialized before the zone began),
`end ≥ duration * 1e-9`. -/
theorem zone_time_amended (start_time s e : Nat) (h : start_time ≤ s) :
    0 ≤ (zone_drop_time_data start_time s e).end_ ∧
    ((zone_drop_time_data start_time s e).duration : ℚ) * (1 / 1000000000)
      ≤ (zone_drop_time_data start_time s e).end_ := by
  constructor
  · simp only [zone_drop_time_data, duration_as_secs_f64]
    positivity
  · simp only [zone_drop_time_data, duration_as_secs_f64, duration_as_nanos_u64,
      mul_one_div]
    have hle : (e - s) % 2 ^ 64 ≤ e - start_time :=
      le_trans (Nat.mod_le _ _) (by omega)
    have hc : (((e - s) % 2 ^ 64 : Nat) : ℚ) ≤ ((e - start_time : Nat) : ℚ) :=
      Nat.cast_le.mpr hle
    gcongr

/-- Witness for the amended C4: a zone from t = 2 s to t = 5 s with
`start_time` at t = 1 s. -/
theorem zone_time_amended_witness :
    0 ≤ (zone_drop_time_data 1000000000 2000000000 5000000000).end_ ∧
    ((zone_drop_time_data 1000000000 2000000000 5000000000).duration : ℚ)
        * (1 / 1000000000)
      ≤ (zone_drop_time_data 1000000000 2000000000 5000000000).end_ :=
  zone_time_amended 1000000000 2000000000 5000000000 (by omega)

end TemporalLens
